import Mathlib

/-!
# Verification of the streaming engine of an Anthropic Rust SDK

Shallow embedding of the streaming subsystem:
* the typed event model (`src/types/streaming.rs`, `src/types/shared.rs`),
* the error type and its rendered messages (`src/types/errors.rs`),
* the SSE decoder's event-name dispatch and heartbeat filter
  (`src/http/streaming.rs`, `HttpStreamClient::create_event_stream`),
* the background accumulator task spawned by
  `MessageStream::from_http_stream` (`src/streaming/mod.rs`, lines 156-256),
* the handler dispatcher `MessageStream::dispatch_event`
  (`src/streaming/mod.rs`, lines 559-617).

The `Message`, `Role`, `ContentBlock` and `StopReason` types live in
`src/types/messages.rs`, which is absent from the source tree; they are
modelled from the specification (§3) and from their uses in the present
files, and are marked as such.

Machine integers (`u32`, `usize`) are modelled as `Nat`: the streaming code
only ever copies and compares them, never performs arithmetic on them, so no
wrap-around behaviour is observable.
-/

namespace AnthropicSdk

/-- Server tool usage statistics (src/types/shared.rs, `ServerToolUsage`). -/
structure ServerToolUsage where
  web_search_requests : Nat
deriving DecidableEq, Repr

/-- Usage information for API requests (src/types/shared.rs, `Usage`). -/
structure Usage where
  input_tokens : Nat
  output_tokens : Nat
  cache_creation_input_tokens : Option Nat
  cache_read_input_tokens : Option Nat
  server_tool_use : Option ServerToolUsage
  service_tier : Option String
deriving DecidableEq, Repr

/-- Modelled from the spec: the `Role` enum of the absent
`src/types/messages.rs`; the tests in `src/streaming/mod.rs` use
`Role::Assistant`, and messages are exchanged between a user and the
assistant. -/
inductive Role where
  | user
  | assistant
deriving DecidableEq, Repr

/-- Modelled from the spec: the `StopReason` enum of the absent
`src/types/messages.rs`; spec §8 names the value `end_turn`, and the wire
protocol's other stop reasons are max-tokens, stop-sequence and tool-use. -/
inductive StopReason where
  | endTurn
  | maxTokens
  | stopSequence
  | toolUse
deriving DecidableEq, Repr

/-- Modelled from the spec: the `ContentBlock` enum of the absent
`src/types/messages.rs`.  Spec §3 describes content blocks as "each either
accumulating text or accumulating tool-input JSON"; `src/streaming/mod.rs`
matches on `ContentBlock::Text { text }` and `ContentBlock::ToolUse
{ input, .. }`, and the thinking variant carries extended-reasoning text.
The tool-use `input` (a `serde_json::Value` in the source) is kept opaque
as its serialized string. -/
inductive ContentBlock where
  | text (text : String)
  | toolUse (id : String) (name : String) (input : String)
  | thinking (thinking : String) (signature : String)
deriving DecidableEq, Repr

/-- Modelled from the spec: the `Message` struct of the absent
`src/types/messages.rs`.  Fields are taken from spec §3 (id, role, model,
ordered content blocks, stop_reason, stop_sequence, usage) and from the
literal `Message { .. }` values built in the tests of
`src/streaming/mod.rs` (which additionally show `type_` and
`request_id`). -/
structure Message where
  id : String
  type_ : String
  role : Role
  content : List ContentBlock
  model : String
  stop_reason : Option StopReason
  stop_sequence : Option String
  usage : Usage
  request_id : Option String
deriving DecidableEq, Repr

/-- Delta updates for message-level information
(src/types/streaming.rs, `MessageDelta`). -/
structure MessageDelta where
  stop_reason : Option StopReason
  stop_sequence : Option String
deriving DecidableEq, Repr

/-- Usage statistics for streaming responses
(src/types/streaming.rs, `MessageDeltaUsage`). -/
structure MessageDeltaUsage where
  output_tokens : Nat
  input_tokens : Option Nat
  cache_creation_input_tokens : Option Nat
  cache_read_input_tokens : Option Nat
  server_tool_use : Option ServerToolUsage
deriving DecidableEq, Repr

/-- Citation information for text blocks
(src/types/streaming.rs, `TextCitation`). -/
inductive TextCitation where
  | charLocation (cited_text : String) (document_index : Nat)
      (document_title : Option String) (start_char_index : Nat)
      (end_char_index : Nat)
  | pageLocation (cited_text : String) (document_index : Nat)
      (document_title : Option String) (start_page_number : Nat)
      (end_page_number : Nat)
  | contentBlockLocation (cited_text : String) (document_index : Nat)
      (document_title : Option String) (start_block_index : Nat)
      (end_block_index : Nat)
  | webSearchResultLocation (cited_text : String) (encrypted_index : String)
      (title : Option String) (url : String)
deriving DecidableEq, Repr

/-- Delta updates for content blocks
(src/types/streaming.rs, `ContentBlockDelta`). -/
inductive ContentBlockDelta where
  | textDelta (text : String)
  | inputJsonDelta (partial_json : String)
  | citationsDelta (citation : TextCitation)
  | thinkingDelta (thinking : String)
  | signatureDelta (signature : String)
deriving DecidableEq, Repr

/-- Main stream event type
(src/types/streaming.rs, `MessageStreamEvent`). -/
inductive MessageStreamEvent where
  | messageStart (message : Message)
  | messageDelta (delta : MessageDelta) (usage : MessageDeltaUsage)
  | messageStop
  | contentBlockStart (content_block : ContentBlock) (index : Nat)
  | contentBlockDelta (delta : ContentBlockDelta) (index : Nat)
  | contentBlockStop (index : Nat)
deriving DecidableEq, Repr

/-- The SDK error enum (src/types/errors.rs, `AnthropicError`). -/
inductive AnthropicError where
  | badRequest (message : String) (status : Nat)
  | authentication (message : String) (status : Nat)
  | permissionDenied (message : String) (status : Nat)
  | notFound (message : String) (status : Nat)
  | unprocessableEntity (message : String) (status : Nat)
  | rateLimit (message : String) (status : Nat)
  | internalServer (message : String) (status : Nat)
  | connection (message : String)
  | connectionTimeout
  | userAbort
  | streamError (message : String)
  | configuration (message : String)
  | invalidApiKey
  | timeout
  | networkError (message : String)
  | httpError (status : Nat) (message : String)
  | serviceUnavailable (message : String)
  | other (message : String)
deriving DecidableEq, Repr

/-- The `Display` rendering of `AnthropicError`, following the
`thiserror` format attributes in src/types/errors.rs (this is what
`e.to_string()` produces in the source). -/
def renderError : AnthropicError → String
  | .badRequest m _ => "Bad request: " ++ m
  | .authentication m _ => "Authentication failed: " ++ m
  | .permissionDenied m _ => "Permission denied: " ++ m
  | .notFound m _ => "Resource not found: " ++ m
  | .unprocessableEntity m _ => "Unprocessable entity: " ++ m
  | .rateLimit m _ => "Rate limit exceeded: " ++ m
  | .internalServer m _ => "Internal server error: " ++ m
  | .connection m => "API connection error: " ++ m
  | .connectionTimeout => "API connection timeout"
  | .userAbort => "User aborted request"
  | .streamError m => "Streaming error: " ++ m
  | .configuration m => "Invalid configuration: " ++ m
  | .invalidApiKey => "Invalid API key"
  | .timeout => "Request timeout"
  | .networkError m => "Network error: " ++ m
  | .httpError s m => "HTTP error: " ++ toString s ++ " - " ++ m
  | .serviceUnavailable m => "Service unavailable: " ++ m
  | .other m => m

/-- Helper for `containsSubstr`: does `needle` occur as a contiguous
sublist of the second argument? -/
def containsSubstrAux (needle : List Char) : List Char → Bool
  | [] => needle.isEmpty
  | c :: rest => needle.isPrefixOf (c :: rest) || containsSubstrAux needle rest

/-- Rust's `str::contains(needle)`: substring containment, expressed on the
underlying character lists. -/
def containsSubstr (hay needle : String) : Bool :=
  containsSubstrAux needle.data hay.data

/-! ## Transport decoder (src/http/streaming.rs, `create_event_stream`)

The decoder maps each SSE frame through a classification on the frame's
event-name field (the `match event.event.as_str()` at lines 113-229) and
then filters the resulting `Result` stream (lines 236-242).  JSON payload
parsing is performed by `serde_json`, an external library; the arms whose
outcome is independent of the payload (`message_stop`, `ping`, unknown
names) are embedded exactly, and the error messages the payload-dependent
arms construct are embedded as string builders applied to the serde
error's rendering. -/

/-- Classification of an SSE frame's event name, mirroring the arms of the
`match event.event.as_str()` in `create_event_stream`. -/
inductive EventName where
  | generic
  | message_start
  | content_block_start
  | content_block_delta
  | content_block_stop
  | message_delta
  | message_stop
  | ping
  | unknown (name : String)
deriving DecidableEq, Repr

/-- The event-name dispatch of `create_event_stream`:
`"message" | ""` parse the payload as a top-level event (the generic arm);
the six stage names select their stage; `"ping"` and any other name fall
through to the last two arms. -/
def classifyEventName (name : String) : EventName :=
  if name = "message" || name = "" then .generic
  else if name = "message_start" then .message_start
  else if name = "content_block_start" then .content_block_start
  else if name = "content_block_delta" then .content_block_delta
  else if name = "content_block_stop" then .content_block_stop
  else if name = "message_delta" then .message_delta
  else if name = "message_stop" then .message_stop
  else if name = "ping" then .ping
  else .unknown name

/-- The decoder's result for the arms that never look at the payload:
`message_stop` yields the event directly (line 213-216), `ping` yields
`Err(StreamError("ping"))` (lines 218-221), and an unrecognized name
yields `Err(StreamError("Unknown event type: {name}"))` (lines 222-228).
`none` marks the payload-dependent arms. -/
def payloadFreeResult : EventName → Option (Except AnthropicError MessageStreamEvent)
  | .message_stop => some (.ok .messageStop)
  | .ping => some (.error (.streamError "ping"))
  | .unknown name => some (.error (.streamError ("Unknown event type: " ++ name)))
  | _ => none

/-- The error the `content_block_delta` arm constructs when the `delta`
field of the payload fails to deserialize (lines 176-178), as a function
of the serde error's rendered message. -/
def contentBlockDeltaParseErrorMsg (serdeMsg : String) : String :=
  "Failed to parse delta in content_block_delta: " ++ serdeMsg

/-- One step of the `filter_map` at lines 236-242: `Ok` events pass
through; an error is dropped exactly when its rendered message contains
the substring `"ping"`, otherwise it passes through. -/
def pingFilterStep (r : Except AnthropicError MessageStreamEvent) :
    Option (Except AnthropicError MessageStreamEvent) :=
  match r with
  | .ok event => some (.ok event)
  | .error e => if containsSubstr (renderError e) "ping" then none else some (.error e)

/-! ## Snapshot accumulator and background task
(src/streaming/mod.rs, `MessageStream::from_http_stream`, lines 156-256)

The spawned task loops over the HTTP stream's items.  For each `Ok` event
it updates the two message copies (`current_message` behind the mutex and
the task-local `final_message`) with identical logic, then broadcasts the
event; `MessageStop` sets `ended`, fires the completion channel and
breaks; an `Err` item sets `errored`, fires the completion channel with
the error and breaks (broadcasting nothing). -/

/-- The `while msg.content.len() <= *index { msg.content.push(Text("")) }`
padding loop in the `ContentBlockStart` arm (lines 171-173 and 177-179). -/
def padContent (content : List ContentBlock) (index : Nat) : List ContentBlock :=
  if _h : content.length ≤ index then
    padContent (content ++ [.text ""]) index
  else
    content
termination_by index + 1 - content.length
decreasing_by simp [List.length_append]; omega

/-- The per-event snapshot update performed by the background task on each
of its two message copies (lines 164-228; the two copies receive the same
textually-duplicated logic).  A `None` snapshot is only replaced by
`MessageStart`; every other event is applied under the
`if let Some(ref mut msg)` guard.  `MessageStop` and `ContentBlockStop`
leave the snapshot untouched. -/
def applySnapshot : Option Message → MessageStreamEvent → Option Message
  | _, .messageStart message => some message
  | some msg, .contentBlockStart content_block index =>
      some { msg with content := (padContent msg.content index).set index content_block }
  | some msg, .contentBlockDelta delta index =>
      match msg.content[index]?, delta with
      | some (.text t), .textDelta delta_text =>
          some { msg with content := msg.content.set index (.text (t ++ delta_text)) }
      | _, _ => some msg
  | some msg, .messageDelta delta usage =>
      some { msg with
        stop_reason := match delta.stop_reason with
          | some r => some r
          | none => msg.stop_reason,
        stop_sequence := match delta.stop_sequence with
          | some s => some s
          | none => msg.stop_sequence,
        usage := { msg.usage with
          output_tokens := usage.output_tokens,
          input_tokens := match usage.input_tokens with
            | some it => it
            | none => msg.usage.input_tokens } }
  | s, _ => s

deriving instance DecidableEq for Except

/-- A handler invocation observed by a callback, used to record what the
dispatcher produces (the payloads of the calls at lines 559-617). -/
inductive HandlerCall where
  | streamEvent (event : MessageStreamEvent) (snapshot : Message)
  | text (delta : String) (snapshot : String)
  | endCall
  | finalMessage (message : Message)
deriving DecidableEq, Repr

/-- State owned or reachable by the background task of
`from_http_stream`, together with two observation channels: `broadcasts`
records every event sent on the broadcast channel (what the pull iterator
can receive), and `handler_calls` records every handler invocation the
task performs. -/
structure TaskState where
  current_message : Option Message
  final_message : Option Message
  ended : Bool
  errored : Bool
  completion : Option (Except AnthropicError Message)
  broadcasts : List MessageStreamEvent
  handler_calls : List HandlerCall
deriving DecidableEq, Repr

/-- The state when `from_http_stream` spawns the task: no message yet,
no flags set, completion channel unfired, nothing broadcast. -/
def initState : TaskState :=
  { current_message := none
    final_message := none
    ended := false
    errored := false
    completion := none
    broadcasts := []
    handler_calls := [] }

/-- The background task's loop (lines 160-255).  `Ok(MessageStop)` sets
`ended`, fires completion with the accumulated `final_message` (or the
"Stream ended without message" error when none was accumulated),
broadcasts the stop event and breaks.  Every other `Ok` event updates both
snapshots and is broadcast, then the loop continues.  An `Err` item sets
`errored`, fires completion with the error and breaks without
broadcasting.  The loop contains no call to `dispatch_event`, so
`handler_calls` is never extended. -/
def runTask : List (Except AnthropicError MessageStreamEvent) → TaskState → TaskState
  | [], s => s
  | .ok .messageStop :: _, s =>
      { s with
        ended := true
        completion := some (match s.final_message with
          | some m => .ok m
          | none => .error (.streamError "Stream ended without message"))
        broadcasts := s.broadcasts ++ [.messageStop] }
  | .ok e :: rest, s =>
      runTask rest
        { s with
          current_message := applySnapshot s.current_message e
          final_message := applySnapshot s.final_message e
          broadcasts := s.broadcasts ++ [e] }
  | .error err :: _, s =>
      { s with
        errored := true
        completion := some (.error err) }

/-- The facade's `final_message()` (lines 415-418): await the completion
channel; if the task finished without firing it (the sender was dropped),
the receive error is mapped to `StreamError("Stream ended
unexpectedly")`. -/
def finalMessageResult (s : TaskState) : Except AnthropicError Message :=
  match s.completion with
  | some r => r
  | none => .error (.streamError "Stream ended unexpectedly")

/-- The items a pull iterator attached from the start observes
(`impl Stream for MessageStream::poll_next`, lines 632-658): each
broadcast event is yielded as `Ok`; nothing else is ever yielded, because
errors are never sent on the broadcast channel. -/
def iteratorItems (s : TaskState) : List (Except AnthropicError MessageStreamEvent) :=
  s.broadcasts.map .ok

/-! ## Handler registration and dispatch
(src/streaming/events.rs and src/streaming/mod.rs, `dispatch_event`) -/

/-- Types of events that can be handled (src/streaming/events.rs,
`EventType`). -/
inductive EventType where
  | streamEvent
  | text
  | message
  | finalMessage
  | error
  | endType
  | connect
  | abortType
deriving DecidableEq, Repr

/-- The kind of a registered handler (src/streaming/events.rs,
`EventHandler`); the callback closures themselves are outside the
embedding, so a handler is represented by its variant. -/
inductive EventHandler where
  | streamEvent
  | text
  | message
  | finalMessage
  | error
  | endHandler
  | connect
  | abortHandler
deriving DecidableEq, Repr

/-- The handler registry: the `HashMap<EventType, Vec<EventHandler>>` of
the facade, as a function from category to the ordered handler list. -/
def Handlers := EventType → List EventHandler

/-- `MessageStream::get_accumulated_text` (lines 620-629): the
concatenation of the `text` fields of all text content blocks. -/
def get_accumulated_text (message : Message) : String :=
  String.join (message.content.filterMap fun b =>
    match b with
    | .text t => some t
    | _ => none)

/-- `MessageStream::dispatch_event` (lines 559-617): the ordered list of
handler invocations the dispatcher performs for one event given the
current snapshot.  Stream-event handlers fire for every event but only
when a snapshot exists; text handlers fire for `TextDelta` deltas with the
accumulated text (empty when no snapshot); end handlers and then
final-message handlers fire on `MessageStop`.  No other category is ever
invoked by this function. -/
def dispatchEvent (handlers : Handlers) (current_message : Option Message)
    (event : MessageStreamEvent) : List HandlerCall :=
  (handlers .streamEvent).filterMap (fun h =>
    match h, current_message with
    | .streamEvent, some msg => some (.streamEvent event msg)
    | _, _ => none)
  ++ (match event with
    | .contentBlockDelta (.textDelta text) _ =>
        (handlers .text).filterMap (fun h =>
          match h with
          | .text =>
              some (.text text (match current_message with
                | some msg => get_accumulated_text msg
                | none => ""))
          | _ => none)
    | .messageStop =>
        ((handlers .endType).filterMap (fun h =>
          match h with
          | .endHandler => some .endCall
          | _ => none))
        ++ (match current_message with
          | some msg =>
              (handlers .finalMessage).filterMap (fun h =>
                match h with
                | .finalMessage => some (.finalMessage msg)
                | _ => none)
          | none => [])
    | _ => [])

/-! ## Specification-side definitions

These translate the words of the claims (not the source) and are compared
with the source embeddings above. -/

/-- The concatenation, in arrival order, of every `TextDelta.text` carried
by a `ContentBlockDelta` at index `i` in the event list (the claim's
"concatenation of every TextDelta.text applied at that block's index"). -/
def concatTextDeltas : List MessageStreamEvent → Nat → String
  | [], _ => ""
  | .contentBlockDelta (.textDelta s) j :: rest, i =>
      if j = i then s ++ concatTextDeltas rest i else concatTextDeltas rest i
  | _ :: rest, i => concatTextDeltas rest i

/-- The content block carried by the first `ContentBlockStart` at index
`i` in the event list, if any. -/
def firstStart : List MessageStreamEvent → Nat → Option ContentBlock
  | [], _ => none
  | .contentBlockStart b j :: rest, i =>
      if j = i then some b else firstStart rest i
  | _ :: rest, i => firstStart rest i

/-- Well-formedness of the body of an event sequence (the events strictly
between `MessageStart` and the final `MessageStop`), parameterized by the
set of content-block indices already started: no further `MessageStart`
or `MessageStop` occurs, every `ContentBlockDelta` addresses an index with
a prior `ContentBlockStart`, and no index is started twice. -/
def WFbody (started : List Nat) : List MessageStreamEvent → Prop
  | [] => True
  | .messageStart _ :: _ => False
  | .messageStop :: _ => False
  | .contentBlockStart _ i :: rest => i ∉ started ∧ WFbody (i :: started) rest
  | .contentBlockDelta _ i :: rest => i ∈ started ∧ WFbody started rest
  | _ :: rest => WFbody started rest

/-! ## Concrete values for witnesses and counterexamples

`msgEx` is the message literal built by `test_event_processing` in
src/streaming/mod.rs (lines 694-713). -/

/-- The usage record of the test message in src/streaming/mod.rs. -/
def usageEx : Usage :=
  { input_tokens := 10
    output_tokens := 0
    cache_creation_input_tokens := none
    cache_read_input_tokens := none
    server_tool_use := none
    service_tier := none }

/-- The message literal of `test_event_processing` in
src/streaming/mod.rs: empty content, no stop data. -/
def msgEx : Message :=
  { id := "msg_test"
    type_ := "message"
    role := .assistant
    content := []
    model := "claude-3-5-sonnet-latest"
    stop_reason := none
    stop_sequence := none
    usage := usageEx
    request_id := none }

/-- `msgEx` with the output-token count overwritten, as a `MessageDelta`
carrying cumulative count `n` leaves it. -/
def msgExOut (n : Nat) : Message :=
  { msgEx with usage := { usageEx with output_tokens := n } }

/-- `msgEx` holding one text block, as it stands after a
`ContentBlockStart` and a `TextDelta`. -/
def msgExText (t : String) : Message :=
  { msgEx with content := [.text t] }

/-- A `MessageDelta` carrying no stop data. -/
def emptyDelta : MessageDelta :=
  { stop_reason := none, stop_sequence := none }

/-- A `MessageDeltaUsage` carrying only a cumulative output-token count. -/
def outOnlyUsage (n : Nat) : MessageDeltaUsage :=
  { output_tokens := n
    input_tokens := none
    cache_creation_input_tokens := none
    cache_read_input_tokens := none
    server_tool_use := none }

/-- A registry holding exactly one text handler. -/
def oneTextHandler : Handlers := fun t =>
  match t with
  | .text => [.text]
  | _ => []

/-- The body of the spec §8 example stream: one text block accumulating
"Hel" then "lo", then a message delta with output tokens 5. -/
def bodyEx : List MessageStreamEvent :=
  [ .contentBlockStart (.text "") 0
  , .contentBlockDelta (.textDelta "Hel") 0
  , .contentBlockDelta (.textDelta "lo") 0
  , .contentBlockStop 0
  , .messageDelta { stop_reason := some .endTurn, stop_sequence := none } (outOnlyUsage 5) ]

/-! ## Helper lemmas -/

/-- Only `MessageStart` can create a snapshot: every other event applied
to an absent snapshot leaves it absent. -/
theorem applySnapshot_none (e : MessageStreamEvent)
    (h : ∀ m, e ≠ .messageStart m) : applySnapshot none e = none := by
  cases e with
  | messageStart m => exact absurd rfl (h m)
  | messageDelta d u => rfl
  | messageStop => rfl
  | contentBlockStart b i => rfl
  | contentBlockDelta d i => rfl
  | contentBlockStop i => rfl

/-- Processing a body with no `MessageStop` and then a final
`MessageStop` fires the completion channel with the folded snapshot (or
the "ended without message" error when none was accumulated). -/
theorem runTask_completion_of_stop (body : List MessageStreamEvent) :
    ∀ s : TaskState, MessageStreamEvent.messageStop ∉ body →
      (runTask (body.map .ok ++ [.ok .messageStop]) s).completion =
        some (match body.foldl applySnapshot s.final_message with
          | some m => .ok m
          | none => .error (.streamError "Stream ended without message")) := by
  induction body with
  | nil => intro s _; simp [runTask]
  | cons e rest ih =>
      intro s h
      have hrest : MessageStreamEvent.messageStop ∉ rest := by
        intro hc; exact h (List.mem_cons_of_mem _ hc)
      have hne : e ≠ MessageStreamEvent.messageStop := by
        intro hc; exact h (hc ▸ List.mem_cons_self e rest)
      cases e with
      | messageStop => exact absurd rfl hne
      | messageStart m => simpa [runTask] using ih _ hrest
      | messageDelta d u => simpa [runTask] using ih _ hrest
      | contentBlockStart b i => simpa [runTask] using ih _ hrest
      | contentBlockDelta d i => simpa [runTask] using ih _ hrest
      | contentBlockStop i => simpa [runTask] using ih _ hrest

/-- Processing a body with no `MessageStop` and then a transport error
fires the completion channel with exactly that error, marks the stream
errored, and broadcasts exactly the body's events (the error itself is
never broadcast). -/
theorem runTask_error_tail (body : List MessageStreamEvent) (err : AnthropicError) :
    ∀ s : TaskState, MessageStreamEvent.messageStop ∉ body →
      (runTask (body.map .ok ++ [.error err]) s).completion = some (.error err) ∧
      (runTask (body.map .ok ++ [.error err]) s).errored = true ∧
      (runTask (body.map .ok ++ [.error err]) s).broadcasts = s.broadcasts ++ body := by
  induction body with
  | nil => intro s _; simp [runTask]
  | cons e rest ih =>
      intro s h
      have hrest : MessageStreamEvent.messageStop ∉ rest := by
        intro hc; exact h (List.mem_cons_of_mem _ hc)
      have hne : e ≠ MessageStreamEvent.messageStop := by
        intro hc; exact h (hc ▸ List.mem_cons_self e rest)
      cases e with
      | messageStop => exact absurd rfl hne
      | messageStart m =>
          simp only [List.map_cons, List.cons_append, List.append_eq, runTask]
          refine ⟨(ih _ hrest).1, (ih _ hrest).2.1, ?_⟩
          rw [(ih _ hrest).2.2]; simp
      | messageDelta d u =>
          simp only [List.map_cons, List.cons_append, List.append_eq, runTask]
          refine ⟨(ih _ hrest).1, (ih _ hrest).2.1, ?_⟩
          rw [(ih _ hrest).2.2]; simp
      | contentBlockStart b i =>
          simp only [List.map_cons, List.cons_append, List.append_eq, runTask]
          refine ⟨(ih _ hrest).1, (ih _ hrest).2.1, ?_⟩
          rw [(ih _ hrest).2.2]; simp
      | contentBlockDelta d i =>
          simp only [List.map_cons, List.cons_append, List.append_eq, runTask]
          refine ⟨(ih _ hrest).1, (ih _ hrest).2.1, ?_⟩
          rw [(ih _ hrest).2.2]; simp
      | contentBlockStop i =>
          simp only [List.map_cons, List.cons_append, List.append_eq, runTask]
          refine ⟨(ih _ hrest).1, (ih _ hrest).2.1, ?_⟩
          rw [(ih _ hrest).2.2]; simp

/-- The task sets at most one of the two lifecycle flags: starting from a
state with both flags clear, at least one remains clear. -/
theorem runTask_flags (evs : List (Except AnthropicError MessageStreamEvent)) :
    ∀ s : TaskState, s.ended = false → s.errored = false →
      (runTask evs s).ended = false ∨ (runTask evs s).errored = false := by
  induction evs with
  | nil => intro s h1 _; exact Or.inl h1
  | cons x rest ih =>
      intro s h1 h2
      cases x with
      | error err => left; simpa [runTask] using h1
      | ok e =>
          cases e with
          | messageStop => right; simpa [runTask] using h2
          | messageStart m => exact ih _ (by simpa using h1) (by simpa using h2)
          | messageDelta d u => exact ih _ (by simpa using h1) (by simpa using h2)
          | contentBlockStart b i => exact ih _ (by simpa using h1) (by simpa using h2)
          | contentBlockDelta d i => exact ih _ (by simpa using h1) (by simpa using h2)
          | contentBlockStop i => exact ih _ (by simpa using h1) (by simpa using h2)

/-- Setting an in-range position makes the lookup at that position return
the new value. -/
theorem getElem?_set_of_lt {α : Type} (l : List α) (i : Nat) (a : α)
    (h : i < l.length) : (l.set i a)[i]? = some a := by
  simp [List.getElem?_set_self', List.getElem?_eq_getElem h]

/-- The padding loop only appends empty text blocks at the end. -/
theorem padContent_eq_append (content : List ContentBlock) (index : Nat) :
    ∃ k, padContent content index = content ++ List.replicate k (.text "") := by
  induction content, index using padContent.induct with
  | case1 content index h ih =>
      obtain ⟨k, hk⟩ := ih
      refine ⟨k + 1, ?_⟩
      rw [padContent, dif_pos h, hk]
      simp [List.replicate_succ]
  | case2 content index h =>
      exact ⟨0, by rw [padContent, dif_neg h]; simp⟩

/-- After padding for `index`, position `index` is in range. -/
theorem length_padContent_gt (content : List ContentBlock) (index : Nat) :
    index < (padContent content index).length := by
  induction content, index using padContent.induct with
  | case1 content index h ih => rw [padContent, dif_pos h]; exact ih
  | case2 content index h => rw [padContent, dif_neg h]; omega

/-- Padding preserves the lookups at the positions already present. -/
theorem padContent_getElem? (content : List ContentBlock) (index i : Nat)
    (h : i < content.length) : (padContent content index)[i]? = content[i]? := by
  obtain ⟨k, hk⟩ := padContent_eq_append content index
  rw [hk]
  exact List.getElem?_append_left h

/-- A well-formed body contains no `MessageStop`. -/
theorem WFbody_no_stop (body : List MessageStreamEvent) :
    ∀ started : List Nat, WFbody started body →
      MessageStreamEvent.messageStop ∉ body := by
  induction body with
  | nil => intro _ _ h; exact List.not_mem_nil _ h
  | cons e rest ih =>
      intro started hwf hmem
      cases e with
      | messageStart m => exact hwf.elim
      | messageStop => exact hwf.elim
      | messageDelta d u =>
          rcases List.mem_cons.mp hmem with hc | hm
          · exact MessageStreamEvent.noConfusion hc
          · exact ih started hwf hm
      | contentBlockStart b j =>
          rcases List.mem_cons.mp hmem with hc | hm
          · exact MessageStreamEvent.noConfusion hc
          · exact ih (j :: started) hwf.2 hm
      | contentBlockDelta d j =>
          rcases List.mem_cons.mp hmem with hc | hm
          · exact MessageStreamEvent.noConfusion hc
          · exact ih started hwf.2 hm
      | contentBlockStop j =>
          rcases List.mem_cons.mp hmem with hc | hm
          · exact MessageStreamEvent.noConfusion hc
          · exact ih started hwf hm

/-- A `ContentBlockDelta` whose (block, delta) pairing is not
(text block, text delta) leaves the snapshot unchanged. -/
theorem applySnapshot_delta_noop (msg : Message) (d : ContentBlockDelta) (j : Nat)
    (h : ∀ sd, d = .textDelta sd → ∀ t0, msg.content[j]? ≠ some (.text t0)) :
    applySnapshot (some msg) (.contentBlockDelta d j) = some msg := by
  cases hbj : msg.content[j]? with
  | none => cases d <;> simp only [applySnapshot, hbj]
  | some cb =>
      cases cb with
      | text t0 =>
          cases d with
          | textDelta sd => exact absurd hbj (h sd rfl t0)
          | inputJsonDelta p => simp only [applySnapshot, hbj]
          | citationsDelta c => simp only [applySnapshot, hbj]
          | thinkingDelta t => simp only [applySnapshot, hbj]
          | signatureDelta sg => simp only [applySnapshot, hbj]
      | toolUse a b c => cases d <;> simp only [applySnapshot, hbj]
      | thinking a b => cases d <;> simp only [applySnapshot, hbj]

/-- Main invariant for C1: folding a well-formed body over a present
snapshot keeps it present; every block already started before the body
(first conjunct) and every block started inside the body (second
conjunct) holds, at the end, its starting text followed by the
concatenation of the body's text deltas at its index. -/
theorem foldBody_invariant (body : List MessageStreamEvent) :
    ∀ (started : List Nat) (msg : Message),
      WFbody started body →
      (∀ i, i ∈ started → ∃ b, msg.content[i]? = some b) →
      ∃ m', body.foldl applySnapshot (some msg) = some m' ∧
        (∀ i t, i ∈ started → msg.content[i]? = some (.text t) →
          m'.content[i]? = some (.text (t ++ concatTextDeltas body i))) ∧
        (∀ i s0, i ∉ started → firstStart body i = some (.text s0) →
          m'.content[i]? = some (.text (s0 ++ concatTextDeltas body i))) := by
  induction body with
  | nil =>
      intro started msg _ _
      refine ⟨msg, rfl, ?_, ?_⟩
      · intro i t _ ht
        simpa [concatTextDeltas, String.append_empty] using ht
      · intro i s0 _ hfs
        exact Option.noConfusion hfs
  | cons e rest ih =>
      intro started msg hwf hrange
      cases e with
      | messageStart m => exact hwf.elim
      | messageStop => exact hwf.elim
      | contentBlockStop j =>
          exact ih started msg hwf hrange
      | messageDelta d u =>
          obtain ⟨m2, he, hc⟩ : ∃ m2,
              applySnapshot (some msg) (.messageDelta d u) = some m2 ∧
              m2.content = msg.content := ⟨_, rfl, rfl⟩
          obtain ⟨m', hm', hA, hB⟩ := ih started m2 hwf
            (fun i hi => by rw [hc]; exact hrange i hi)
          refine ⟨m', ?_, ?_, ?_⟩
          · rw [List.foldl_cons, he]; exact hm'
          · intro i t hi ht
            exact hA i t hi (by rw [hc]; exact ht)
          · intro i s0 hi hfs
            exact hB i s0 hi hfs
      | contentBlockStart b j =>
          obtain ⟨hj, hwf'⟩ := hwf
          obtain ⟨m2, he, hc⟩ : ∃ m2,
              applySnapshot (some msg) (.contentBlockStart b j) = some m2 ∧
              m2.content = (padContent msg.content j).set j b := ⟨_, rfl, rfl⟩
          have hjlt : j < (padContent msg.content j).length := length_padContent_gt _ _
          have hCj : m2.content[j]? = some b := by
            rw [hc]; exact getElem?_set_of_lt _ _ _ hjlt
          have hpres : ∀ i, i ≠ j → i < msg.content.length →
              m2.content[i]? = msg.content[i]? := by
            intro i hne hlt
            rw [hc, List.getElem?_set_ne (fun h => hne h.symm),
              padContent_getElem? _ _ _ hlt]
          have hrange' : ∀ i, i ∈ j :: started → ∃ b', m2.content[i]? = some b' := by
            intro i hi
            rcases List.mem_cons.mp hi with rfl | hi'
            · exact ⟨b, hCj⟩
            · obtain ⟨b', hb'⟩ := hrange i hi'
              have hne : i ≠ j := fun h => hj (h ▸ hi')
              have hlt : i < msg.content.length := (List.getElem?_eq_some.mp hb').1
              exact ⟨b', by rw [hpres i hne hlt]; exact hb'⟩
          obtain ⟨m', hm', hA, hB⟩ := ih (j :: started) m2 hwf' hrange'
          refine ⟨m', ?_, ?_, ?_⟩
          · rw [List.foldl_cons, he]; exact hm'
          · intro i t hi ht
            have hne : i ≠ j := fun h => hj (h ▸ hi)
            have hlt : i < msg.content.length := (List.getElem?_eq_some.mp ht).1
            have ht2 : m2.content[i]? = some (.text t) := by
              rw [hpres i hne hlt]; exact ht
            exact hA i t (List.mem_cons_of_mem _ hi) ht2
          · intro i s0 hi hfs
            by_cases hji : j = i
            · subst hji
              have hb : b = .text s0 := by simpa [firstStart] using hfs
              have ht2 : m2.content[j]? = some (.text s0) := hb ▸ hCj
              exact hA j s0 (List.mem_cons_self _ _) ht2
            · have hfs' : firstStart rest i = some (.text s0) := by
                simpa [firstStart, hji] using hfs
              have hi' : i ∉ j :: started := by
                intro hmem
                rcases List.mem_cons.mp hmem with h | h
                · exact hji h.symm
                · exact hi h
              exact hB i s0 hi' hfs'
      | contentBlockDelta d j =>
          obtain ⟨hjs, hwf'⟩ := hwf
          by_cases htext : ∃ t0 sd, msg.content[j]? = some (.text t0) ∧ d = .textDelta sd
          · obtain ⟨t0, sd, hbj, rfl⟩ := htext
            have hjlt : j < msg.content.length := (List.getElem?_eq_some.mp hbj).1
            obtain ⟨m2, he, hc⟩ : ∃ m2,
                applySnapshot (some msg) (.contentBlockDelta (.textDelta sd) j) = some m2 ∧
                m2.content = msg.content.set j (.text (t0 ++ sd)) :=
              ⟨{ msg with content := msg.content.set j (.text (t0 ++ sd)) },
                by simp only [applySnapshot, hbj], rfl⟩
            have hCj : m2.content[j]? = some (.text (t0 ++ sd)) := by
              rw [hc]; exact getElem?_set_of_lt _ _ _ hjlt
            have hpres : ∀ i, i ≠ j → m2.content[i]? = msg.content[i]? := by
              intro i hne
              rw [hc, List.getElem?_set_ne (fun h => hne h.symm)]
            have hrange' : ∀ i, i ∈ started → ∃ b', m2.content[i]? = some b' := by
              intro i hi
              by_cases hij : i = j
              · subst hij; exact ⟨_, hCj⟩
              · obtain ⟨b', hb'⟩ := hrange i hi
                exact ⟨b', by rw [hpres i hij]; exact hb'⟩
            obtain ⟨m', hm', hA, hB⟩ := ih started m2 hwf' hrange'
            refine ⟨m', ?_, ?_, ?_⟩
            · rw [List.foldl_cons, he]; exact hm'
            · intro i t hi ht
              by_cases hij : i = j
              · subst hij
                have ht0 : t0 = t := by simpa using hbj.symm.trans ht
                subst ht0
                have hacc := hA i (t0 ++ sd) hi hCj
                rw [show concatTextDeltas
                      (MessageStreamEvent.contentBlockDelta (.textDelta sd) i :: rest) i
                    = sd ++ concatTextDeltas rest i by simp [concatTextDeltas]]
                rw [← String.append_assoc]
                exact hacc
              · have ht2 : m2.content[i]? = some (.text t) := by
                  rw [hpres i hij]; exact ht
                have hacc := hA i t hi ht2
                have hji : j ≠ i := fun h => hij h.symm
                rw [show concatTextDeltas
                      (MessageStreamEvent.contentBlockDelta (.textDelta sd) j :: rest) i
                    = concatTextDeltas rest i by simp [concatTextDeltas, hji]]
                exact hacc
            · intro i s0 hi hfs
              have hji : j ≠ i := fun h => hi (h ▸ hjs)
              have hacc := hB i s0 hi hfs
              rw [show concatTextDeltas
                    (MessageStreamEvent.contentBlockDelta (.textDelta sd) j :: rest) i
                  = concatTextDeltas rest i by simp [concatTextDeltas, hji]]
              exact hacc
          · have hnoop : applySnapshot (some msg) (.contentBlockDelta d j) = some msg := by
              refine applySnapshot_delta_noop msg d j ?_
              intro sd hd t0 hc
              exact htext ⟨t0, sd, hc, hd⟩
            obtain ⟨m', hm', hA, hB⟩ := ih started msg hwf' hrange
            refine ⟨m', ?_, ?_, ?_⟩
            · rw [List.foldl_cons, hnoop]; exact hm'
            · intro i t hi ht
              have hacc := hA i t hi ht
              cases d with
              | textDelta sd =>
                  by_cases hji : j = i
                  · subst hji
                    exact absurd ⟨t, sd, ht, rfl⟩ htext
                  · rw [show concatTextDeltas
                        (MessageStreamEvent.contentBlockDelta (.textDelta sd) j :: rest) i
                      = concatTextDeltas rest i by simp [concatTextDeltas, hji]]
                    exact hacc
              | inputJsonDelta p => exact hacc
              | citationsDelta c => exact hacc
              | thinkingDelta th => exact hacc
              | signatureDelta sg => exact hacc
            · intro i s0 hi hfs
              have hacc := hB i s0 hi hfs
              cases d with
              | textDelta sd =>
                  have hji : j ≠ i := fun h => hi (h ▸ hjs)
                  rw [show concatTextDeltas
                        (MessageStreamEvent.contentBlockDelta (.textDelta sd) j :: rest) i
                      = concatTextDeltas rest i by simp [concatTextDeltas, hji]]
                  exact hacc
              | inputJsonDelta p => exact hacc
              | citationsDelta c => exact hacc
              | thinkingDelta th => exact hacc
              | signatureDelta sg => exact hacc

/-- The first loop iteration on `Ok(MessageStart)` installs the message
as both snapshot copies and broadcasts the event. -/
theorem runTask_cons_messageStart (m0 : Message)
    (L : List (Except AnthropicError MessageStreamEvent)) (s : TaskState) :
    runTask (.ok (.messageStart m0) :: L) s =
      runTask L { s with
        current_message := some m0
        final_message := some m0
        broadcasts := s.broadcasts ++ [.messageStart m0] } := by
  simp [runTask, applySnapshot]

/-! ## Claims -/

/-- C6: applying a `MessageDelta` event to the snapshot sets `stop_reason`
and `stop_sequence` only when present in the delta, overwrites the
output-token usage with the delta's cumulative value, overwrites the
input-token usage only when the delta carries one, and leaves every other
field of the snapshot (id, role, model, content blocks, remaining usage
fields) unchanged. -/
theorem messageDelta_snapshot_effect (msg : Message) (delta : MessageDelta)
    (usage : MessageDeltaUsage) :
    ∃ m', applySnapshot (some msg) (.messageDelta delta usage) = some m' ∧
      m'.id = msg.id ∧ m'.type_ = msg.type_ ∧ m'.role = msg.role ∧
      m'.model = msg.model ∧ m'.content = msg.content ∧
      m'.request_id = msg.request_id ∧
      m'.stop_reason = (match delta.stop_reason with
        | some r => some r
        | none => msg.stop_reason) ∧
      m'.stop_sequence = (match delta.stop_sequence with
        | some sq => some sq
        | none => msg.stop_sequence) ∧
      m'.usage.output_tokens = usage.output_tokens ∧
      m'.usage.input_tokens = (match usage.input_tokens with
        | some it => it
        | none => msg.usage.input_tokens) ∧
      m'.usage.cache_creation_input_tokens = msg.usage.cache_creation_input_tokens ∧
      m'.usage.cache_read_input_tokens = msg.usage.cache_read_input_tokens ∧
      m'.usage.server_tool_use = msg.usage.server_tool_use ∧
      m'.usage.service_tier = msg.usage.service_tier :=
  ⟨_, rfl, rfl, rfl, rfl, rfl, rfl, rfl, rfl, rfl, rfl, rfl, rfl, rfl, rfl, rfl⟩

/-- C7: at most one of the two lifecycle flags `ended` and `errored` ever
becomes true for a stream: `MessageStop` sets `ended` and breaks the loop,
a transport/decode failure sets `errored` and breaks the loop, so
whichever comes first prevents the other from ever being set. -/
theorem ended_errored_mutually_exclusive
    (evs : List (Except AnthropicError MessageStreamEvent)) :
    (runTask evs initState).ended = false ∨ (runTask evs initState).errored = false :=
  runTask_flags evs initState rfl rfl

/-- C9: when `MessageStop` arrives without any prior `MessageStart`, the
completion channel fires with `StreamError("Stream ended without
message")` rather than `Ok`, and `final_message()` resolves to that
error. -/
theorem messageStop_without_messageStart_errors (body : List MessageStreamEvent)
    (hstart : ∀ m, MessageStreamEvent.messageStart m ∉ body)
    (hstop : MessageStreamEvent.messageStop ∉ body) :
    (runTask (body.map .ok ++ [.ok .messageStop]) initState).completion =
      some (.error (.streamError "Stream ended without message")) ∧
    finalMessageResult (runTask (body.map .ok ++ [.ok .messageStop]) initState) =
      .error (.streamError "Stream ended without message") := by
  have hfold : body.foldl applySnapshot (none : Option Message) = none := by
    clear hstop
    induction body with
    | nil => rfl
    | cons e rest ih =>
        have he : applySnapshot none e = none := by
          refine applySnapshot_none e (fun m hm => ?_)
          exact hstart m (hm ▸ List.mem_cons_self e rest)
        rw [List.foldl_cons, he]
        exact ih (fun m hm => hstart m (List.mem_cons_of_mem _ hm))
  have h := runTask_completion_of_stop body initState hstop
  rw [show initState.final_message = none from rfl, hfold] at h
  exact ⟨h, by simp [finalMessageResult, h]⟩

/-- C9 witness: the empty body (a bare `message_stop` stream). -/
theorem messageStop_without_messageStart_errors_witness :
    (∀ m, MessageStreamEvent.messageStart m ∉ ([] : List MessageStreamEvent)) ∧
    (MessageStreamEvent.messageStop ∉ ([] : List MessageStreamEvent)) ∧
    ((runTask (([] : List MessageStreamEvent).map .ok ++ [.ok .messageStop]) initState).completion =
      some (.error (.streamError "Stream ended without message")) ∧
    finalMessageResult (runTask (([] : List MessageStreamEvent).map .ok ++ [.ok .messageStop]) initState) =
      .error (.streamError "Stream ended without message")) :=
  ⟨fun _ h => (List.not_mem_nil _ h), fun h => (List.not_mem_nil _ h),
    messageStop_without_messageStart_errors [] (fun _ h => (List.not_mem_nil _ h))
      (fun h => (List.not_mem_nil _ h))⟩

/-- C10: the heartbeat filter drops errors by substring match on the
rendered error message: every error whose rendering contains `"ping"` is
removed from the decoder's output instead of being surfaced, whatever arm
produced it. -/
theorem ping_substring_filter_drops (e : AnthropicError)
    (h : containsSubstr (renderError e) "ping" = true) :
    pingFilterStep (.error e) = none := by
  simp [pingFilterStep, h]

/-- C10 witness: a decode error of the recognized stage
`content_block_delta` whose serde message mentions a `ping_delta`
variant renders with `"ping"` inside and is silently dropped. -/
theorem ping_substring_filter_drops_witness :
    containsSubstr (renderError (.streamError (contentBlockDeltaParseErrorMsg
      "unknown variant ping_delta, expected one of text_delta, input_json_delta")))
      "ping" = true ∧
    pingFilterStep (.error (.streamError (contentBlockDeltaParseErrorMsg
      "unknown variant ping_delta, expected one of text_delta, input_json_delta"))) = none :=
  ⟨by decide, ping_substring_filter_drops _ (by decide)⟩

/-- C4 counterexample: a `TextDelta` at index 0 of a message with an empty
content list leaves the snapshot unchanged — the content list still has 0
entries afterwards, not the claimed `index + 1 = 1`.  (The padding loop
runs only in the `ContentBlockStart` arm.) -/
theorem contentBlockDelta_no_padding_cex :
    applySnapshot (some msgEx) (.contentBlockDelta (.textDelta "Hel") 0) = some msgEx ∧
    msgEx.content.length = 0 :=
  ⟨rfl, rfl⟩

/-- C4 amended: applying a `ContentBlockDelta` whose index is beyond the
content list does not panic — the event is a no-op on the snapshot (the
out-of-range lookup `content.get_mut(index)` yields nothing); no padding
of the content list takes place on deltas. -/
theorem contentBlockDelta_out_of_range_noop (msg : Message)
    (delta : ContentBlockDelta) (index : Nat)
    (h : msg.content.length ≤ index) :
    applySnapshot (some msg) (.contentBlockDelta delta index) = some msg := by
  have hnone : msg.content[index]? = none := List.getElem?_eq_none h
  simp only [applySnapshot, hnone]

/-- C4 witness: the out-of-range no-op at the concrete empty-content
message and index 0. -/
theorem contentBlockDelta_out_of_range_noop_witness :
    msgEx.content.length ≤ 0 ∧
    applySnapshot (some msgEx) (.contentBlockDelta (.textDelta "lo") 0) = some msgEx :=
  ⟨by decide, contentBlockDelta_out_of_range_noop msgEx (.textDelta "lo") 0 (by decide)⟩

/-- C8 counterexample: two successive `MessageDelta` events carrying
cumulative output-token counts 5 then 3 leave the snapshot with counts 5
then 3 — the count decreases, refuting unconditional monotonicity (the
accumulator copies the wire value verbatim and enforces nothing). -/
theorem usage_monotonicity_cex :
    applySnapshot (some msgEx) (.messageDelta emptyDelta (outOnlyUsage 5)) =
      some (msgExOut 5) ∧
    applySnapshot (some (msgExOut 5)) (.messageDelta emptyDelta (outOnlyUsage 3)) =
      some (msgExOut 3) ∧
    (msgExOut 5).usage.output_tokens = 5 ∧
    (msgExOut 3).usage.output_tokens = 3 :=
  ⟨rfl, rfl, rfl, rfl⟩

/-- C8 amended: across two successive `MessageDelta` events the
snapshot's output-token count is non-decreasing provided the deltas'
cumulative values are non-decreasing — the snapshot always holds exactly
the last delta's value. -/
theorem usage_monotone_of_monotone_deltas (msg m1 m2 : Message)
    (d1 d2 : MessageDelta) (u1 u2 : MessageDeltaUsage)
    (hmono : u1.output_tokens ≤ u2.output_tokens)
    (h1 : applySnapshot (some msg) (.messageDelta d1 u1) = some m1)
    (h2 : applySnapshot (some m1) (.messageDelta d2 u2) = some m2) :
    m1.usage.output_tokens = u1.output_tokens ∧
    m2.usage.output_tokens = u2.output_tokens ∧
    m1.usage.output_tokens ≤ m2.usage.output_tokens := by
  simp only [applySnapshot, Option.some.injEq] at h1 h2
  subst h1
  subst h2
  exact ⟨rfl, rfl, hmono⟩

/-- C8 witness: deltas carrying 3 then 5 leave counts 3 then 5. -/
theorem usage_monotone_of_monotone_deltas_witness :
    (outOnlyUsage 3).output_tokens ≤ (outOnlyUsage 5).output_tokens ∧
    ((msgExOut 3).usage.output_tokens = (outOnlyUsage 3).output_tokens ∧
     (msgExOut 5).usage.output_tokens = (outOnlyUsage 5).output_tokens ∧
     (msgExOut 3).usage.output_tokens ≤ (msgExOut 5).usage.output_tokens) :=
  ⟨by decide,
    usage_monotone_of_monotone_deltas msgEx (msgExOut 3) (msgExOut 5)
      emptyDelta emptyDelta (outOnlyUsage 3) (outOnlyUsage 5)
      (by decide) (by decide) (by decide)⟩

/-- C5 counterexample: a stream failing immediately with a connection
error delivers that error via the completion channel, but the pull
iterator observes no items at all — in particular the error is not the
terminating item of the iteration, because errors are never sent on the
broadcast channel. -/
theorem error_never_iterated_cex :
    iteratorItems (runTask [.error (.connection "connection reset")] initState) = [] ∧
    finalMessageResult (runTask [.error (.connection "connection reset")] initState) =
      .error (.connection "connection reset") ∧
    (runTask [.error (.connection "connection reset")] initState).errored = true :=
  ⟨rfl, rfl, rfl⟩

/-- C5 amended: for every stream failing with a transport or decode error
before `MessageStop`, the error is delivered exactly once via the
completion channel (`final_message()` resolves to `Err` with it) and the
stream is marked errored; the error is never sent on the broadcast
channel, so a manual iterator observes only the events that preceded it
and never the error itself. -/
theorem error_completion_only (body : List MessageStreamEvent) (err : AnthropicError)
    (hstop : MessageStreamEvent.messageStop ∉ body) :
    finalMessageResult (runTask (body.map .ok ++ [.error err]) initState) = .error err ∧
    (runTask (body.map .ok ++ [.error err]) initState).errored = true ∧
    iteratorItems (runTask (body.map .ok ++ [.error err]) initState) = body.map .ok := by
  obtain ⟨h1, h2, h3⟩ := runTask_error_tail body err initState hstop
  refine ⟨?_, h2, ?_⟩
  · simp [finalMessageResult, h1]
  · simp only [iteratorItems]
    rw [h3]
    simp [initState]

/-- C5 witness: one text delta followed by a connection error. -/
theorem error_completion_only_witness :
    (MessageStreamEvent.messageStop ∉ [MessageStreamEvent.contentBlockDelta (.textDelta "Hel") 0]) ∧
    (finalMessageResult (runTask ([MessageStreamEvent.contentBlockDelta (.textDelta "Hel") 0].map .ok
        ++ [.error (.connection "connection reset")]) initState) =
      .error (.connection "connection reset") ∧
    (runTask ([MessageStreamEvent.contentBlockDelta (.textDelta "Hel") 0].map .ok
        ++ [.error (.connection "connection reset")]) initState).errored = true ∧
    iteratorItems (runTask ([MessageStreamEvent.contentBlockDelta (.textDelta "Hel") 0].map .ok
        ++ [.error (.connection "connection reset")]) initState) =
      [MessageStreamEvent.contentBlockDelta (.textDelta "Hel") 0].map .ok) :=
  ⟨by decide,
    error_completion_only [MessageStreamEvent.contentBlockDelta (.textDelta "Hel") 0]
      (.connection "connection reset") (by decide)⟩

/-- C3: a frame named `ping` is classified as `ping`, turned into
`Err(StreamError("ping"))`, and dropped by the filter — but a frame with
an unrecognized name such as `foo` is turned into
`Err(StreamError("Unknown event type: foo"))`, which passes the filter
(its message does not contain `"ping"`) and, reaching the consumer,
marks the stream errored and resolves `final_message()` to that error:
unrecognized names are NOT silently dropped, contradicting the claim and
the source's own comment "Log unknown event types but don't fail". -/
theorem unknown_event_name_surfaces_error :
    classifyEventName "ping" = .ping ∧
    payloadFreeResult (classifyEventName "ping") =
      some (.error (.streamError "ping")) ∧
    pingFilterStep (.error (.streamError "ping")) = none ∧
    classifyEventName "foo" = .unknown "foo" ∧
    payloadFreeResult (classifyEventName "foo") =
      some (.error (.streamError "Unknown event type: foo")) ∧
    pingFilterStep (.error (.streamError "Unknown event type: foo")) =
      some (.error (.streamError "Unknown event type: foo")) ∧
    (runTask [.error (.streamError "Unknown event type: foo")] initState).errored = true ∧
    finalMessageResult (runTask [.error (.streamError "Unknown event type: foo")] initState) =
      .error (.streamError "Unknown event type: foo") := by
  refine ⟨by decide, by decide, by decide, by decide, by decide, by decide, rfl, rfl⟩

/-- C1: for every well-formed event sequence — a `MessageStart`, then a
body in which every `ContentBlockDelta` addresses a previously started
index and no index is started twice, then a `MessageStop` —
`final_message()` resolves to `Ok`, and each text content block started by
a `ContentBlockStart` ends holding its starting text followed by the
concatenation, in arrival order, of every `TextDelta.text` applied at that
block's index. -/
theorem wellformed_stream_text_accumulation (m0 : Message)
    (body : List MessageStreamEvent) (hwf : WFbody [] body) :
    ∃ m, finalMessageResult (runTask
        (.ok (.messageStart m0) :: (body.map .ok ++ [.ok .messageStop])) initState) = .ok m ∧
      ∀ i s0, firstStart body i = some (.text s0) →
        m.content[i]? = some (.text (s0 ++ concatTextDeltas body i)) := by
  have hstop : MessageStreamEvent.messageStop ∉ body := WFbody_no_stop body [] hwf
  obtain ⟨m', hm', _, hB⟩ := foldBody_invariant body [] m0 hwf
    (fun i hi => absurd hi (List.not_mem_nil i))
  rw [runTask_cons_messageStart]
  have hrun := runTask_completion_of_stop body
    { initState with
      current_message := some m0
      final_message := some m0
      broadcasts := initState.broadcasts ++ [.messageStart m0] } hstop
  rw [show ({ initState with
      current_message := some m0
      final_message := some m0
      broadcasts := initState.broadcasts ++ [.messageStart m0] } : TaskState).final_message
    = some m0 from rfl, hm'] at hrun
  refine ⟨m', ?_, fun i s0 hfs => hB i s0 (List.not_mem_nil i) hfs⟩
  simp [finalMessageResult, hrun]

/-- C1 witness: the spec §8 example stream accumulates `"Hello"` in text
block 0 and resolves to `Ok`. -/
theorem wellformed_stream_text_accumulation_witness :
    WFbody [] bodyEx ∧
    (∃ m, finalMessageResult (runTask
        (.ok (.messageStart msgEx) :: (bodyEx.map .ok ++ [.ok .messageStop])) initState) = .ok m ∧
      ∀ i s0, firstStart bodyEx i = some (.text s0) →
        m.content[i]? = some (.text (s0 ++ concatTextDeltas bodyEx i))) :=
  ⟨by simp [bodyEx, WFbody],
    wellformed_stream_text_accumulation msgEx bodyEx (by simp [bodyEx, WFbody])⟩

/-- C2: the background loop of `from_http_stream` never invokes any
registered handler — over the spec §8 example stream it performs zero
handler invocations, even though a registered text handler matches the
`TextDelta` event and `dispatch_event` (which the loop never calls) would
have produced a text-handler call for it. -/
theorem loop_never_invokes_handlers :
    (runTask [ .ok (.messageStart msgEx)
             , .ok (.contentBlockStart (.text "") 0)
             , .ok (.contentBlockDelta (.textDelta "Hel") 0)
             , .ok .messageStop ] initState).handler_calls = [] ∧
    dispatchEvent oneTextHandler (some (msgExText "Hel"))
      (.contentBlockDelta (.textDelta "Hel") 0) = [.text "Hel" "Hel"] :=
  ⟨rfl, rfl⟩

end AnthropicSdk
